import Mathlib

/-!
Verification development for the `postprocess_data` repository.

The pipeline in `netcdf_reader.py` / `postprocess_data/readers/base_netcdf_reader.py`
resolves variable expressions against a raw dataset, reduces the vertical
dimension per product type, resamples time, merges per-pattern datasets and
writes the results.  We embed the relevant functions shallowly: arrays carry
integer cell values, the lazy multi-file engine (xarray) is out of scope for
the repository and its operations used here (`merge`, `combine_by_coords`,
`resample`) are modelled from the spec's description of those capabilities.
-/

instance {ε α : Type _} [DecidableEq ε] [DecidableEq α] : DecidableEq (Except ε α) := fun x y =>
  match x, y with
  | .ok a, .ok b =>
    if h : a = b then isTrue (by rw [h]) else isFalse (by intro he; cases he; exact h rfl)
  | .error a, .error b =>
    if h : a = b then isTrue (by rw [h]) else isFalse (by intro he; cases he; exact h rfl)
  | .ok _, .error _ => isFalse (by intro he; cases he)
  | .error _, .ok _ => isFalse (by intro he; cases he)

/-- A labeled model array as produced by the raw dataset: either a 2-D array
(no `deptht` vertical axis; one value per horizontal/time cell) or a 3-D array
(one vertical column per cell).  Cell values are modelled as integers. -/
inductive Arr where
  | a2 : List Int → Arr
  | a3 : List (List Int) → Arr
  deriving Repr, DecidableEq

/-- Element-wise addition with xarray-style broadcasting of a 2-D operand
against the vertical columns of a 3-D operand. -/
def Arr.add : Arr → Arr → Arr
  | .a2 x, .a2 y => .a2 (List.zipWith (· + ·) x y)
  | .a3 x, .a3 y => .a3 (List.zipWith (List.zipWith (· + ·)) x y)
  | .a2 x, .a3 y => .a3 (List.zipWith (fun v col => col.map (fun w => v + w)) x y)
  | .a3 x, .a2 y => .a3 (List.zipWith (fun col v => col.map (fun w => w + v)) x y)

/-- A raw field: its data plus an optional `units` attribute (absent units
raise `AttributeError` in the source). -/
structure RawVar where
  data : Arr
  units : Option String
  deriving Repr, DecidableEq

/-- The external lazily-loaded multi-file dataset: a mapping from field name
to a raw field.  The core only reads from it. -/
structure RawDataset where
  vars : List (String × RawVar)
  deriving Repr, DecidableEq

def RawDataset.find? (ds : RawDataset) (name : String) : Option RawVar :=
  ds.vars.lookup name

/-- Per-variable failures caught by `_create_dataset`: a missing field
(`KeyError`) or a missing `units` attribute (`AttributeError`). -/
inductive PErr where
  | varNotFound : String → PErr
  | missingUnits : String → PErr
  deriving Repr, DecidableEq

def getVar (ds : RawDataset) (name : String) : Except PErr RawVar :=
  match ds.find? name with
  | some v => .ok v
  | none => .error (.varNotFound name)

def getUnits (name : String) (v : RawVar) : Except PErr String :=
  match v.units with
  | some u => .ok u
  | none => .error (.missingUnits name)

/-- Python `sep in s` for a one-character separator. -/
def pyContains (c : Char) (s : String) : Bool :=
  s.toList.contains c

def pySplitAux (sep : Char) : List Char → List Char → List String
  | [], cur => [String.mk cur.reverse]
  | c :: rest, cur =>
    if c = sep then String.mk cur.reverse :: pySplitAux sep rest []
    else pySplitAux sep rest (c :: cur)

/-- Python `s.split(sep)` for a one-character separator: e.g.
`"a+b".split('+') = ["a", "b"]` and `"a+".split('+') = ["a", ""]`. -/
def pySplit (sep : Char) (s : String) : List String :=
  pySplitAux sep s.toList []

def dropLeadingWs : List Char → List Char
  | [] => []
  | c :: rest => if c.isWhitespace then dropLeadingWs rest else c :: rest

/-- Python `s.strip()`. -/
def pyStrip (s : String) : String :=
  String.mk (dropLeadingWs (dropLeadingWs s.toList.reverse).reverse)

def pySplitWsAux : List Char → List Char → List String
  | [], cur => if cur.isEmpty then [] else [String.mk cur.reverse]
  | c :: rest, cur =>
    if c.isWhitespace then
      if cur.isEmpty then pySplitWsAux rest []
      else String.mk cur.reverse :: pySplitWsAux rest []
    else pySplitWsAux rest (c :: cur)

/-- Python `s.split()` with no argument: split on whitespace runs, no empty
components. -/
def pySplitWs (s : String) : List String :=
  pySplitWsAux s.toList []

/-- Python `s[:-1]`: drop the final character (the empty slice of `""`). -/
def pyDropLast (s : String) : String :=
  String.mk s.toList.dropLast

/-- The resolution half of `_process_variable` (lines 215-221 of
`netcdf_reader.py`, identical in `netcdf_reader_nemo.py`): a `+`-joined
expression is split into components, all components are summed element-wise
(`ds[components].to_array().sum("variable")`) and the units are the first
component's unit string with its last character dropped and `"2"` appended
(`ds[components[0]].units[:-1] + "2"`); a plain name is looked up directly
with its stored units. -/
def resolveVariable (ds : RawDataset) (var : String) : Except PErr (Arr × String) :=
  if pyContains '+' var then
    match pySplit '+' var with
    | [] => .error (.varNotFound var)
    | c0 :: rest => do
      let v0 ← getVar ds c0
      let vs ← rest.mapM (getVar ds)
      let summed := (vs.map RawVar.data).foldl Arr.add v0.data
      let u0 ← getUnits c0 v0
      pure (summed, pyDropLast u0 ++ "2")
  else do
    let v ← getVar ds var
    let u ← getUnits var v
    pure (v.data, u)

def boolToInt (b : Bool) : Int := if b then 1 else 0

/-- Multiply one vertical column element-wise by an indicator-mask column. -/
def mulMaskCol (col : List Int) (mc : List Bool) : List Int :=
  List.zipWith (fun v b => v * boolToInt b) col mc

/-- `(summed_var * mask).sum('deptht')`: multiply by the bottom indicator
mask element-wise and sum along the vertical axis. -/
def reduceBottom (f : List (List Int)) (m : List (List Bool)) : List Int :=
  (List.zipWith mulMaskCol f m).map List.sum

/-- `((summed_var * cell_thick) * mask).sum('deptht')`: the thickness- and
mask-weighted vertical integral. -/
def reduceIntegrated (f : List (List Int)) (e3t : List (List Int))
    (m : List (List Bool)) : List Int :=
  (List.zipWith mulMaskCol (List.zipWith (List.zipWith (· * ·)) f e3t) m).map List.sum

/-- `summed_var.isel(deptht=0)`: the top vertical level of each column. -/
def iselDepth0 (f : List (List Int)) : List Int :=
  f.map (fun col => col.headD 0)

/-- The masks loaded by `_generate_mask` from the mask file, after the
`z -> deptht` axis renaming: the bottom indicator field `floor` (1 at the
sea-floor cell of a column, else 0, encoded as `Bool`), and the
(`tmask`, `e3t_0`) pair for integration. -/
structure Masks where
  floor : List (List Bool)
  tmask : List (List Bool)
  e3t : List (List Int)
  deriving Repr, DecidableEq

/-- The dynamic result of `_process_variable`: every vertical-reduction
branch returns the tuple `(array, units)`, while the final `else` branch
(line 234: `return summed_var`) returns the bare array alone. -/
inductive ProcOut where
  | pair : Arr → String → ProcOut
  | bare : Arr → ProcOut
  deriving Repr, DecidableEq

/-- `_process_variable` (lines 202-234 of `netcdf_reader.py`): resolve the
expression, then, if the field has a `deptht` dimension, reduce it according
to the product-type suffix; a field without a vertical dimension is returned
bare, without its units. -/
def processVariable (masks : Masks) (ds : RawDataset) (var : String)
    (suffix : String) : Except PErr ProcOut := do
  let rv ← resolveVariable ds var
  match rv.1 with
  | .a3 f =>
    if suffix = "_integrated" then
      pure (.pair (.a2 (reduceIntegrated f masks.e3t masks.tmask)) rv.2)
    else if suffix = "_bottom" then
      pure (.pair (.a2 (reduceBottom f masks.floor)) rv.2)
    else
      pure (.pair (.a2 (iselDepth0 f)) rv.2)
  | .a2 vals =>
    pure (.bare (.a2 vals))

/-- The per-run configuration options held by `OptionsReader`. -/
structure Options where
  modelType : String
  modelPath : String
  outputPath : String
  maskPath : String
  physFiles : List String
  bioFiles : List String
  timeUnit : String
  saveOption : String
  surfacePhys : List String
  surfaceBio : List String
  integratedPhys : List String
  integratedBio : List String
  bottomPhys : List String
  bottomBio : List String
  mapping : List (String × String)
  deriving Repr, DecidableEq

/-- `OptionsReader.get_variable_name`: the mapped output name if a mapping
entry exists, else the original name. -/
def getVariableName (opts : Options) (var : String) : String :=
  (opts.mapping.lookup var).getD var

/-- One entry of `_create_dataset`'s per-variable loop body: `some` when
`_process_variable` returned a `(field, units)` pair, `none` when it raised
(failure is caught and logged) or returned a bare array (the caller's tuple
unpacking of the bare array raises, which the same handler catches). -/
def procEntry (opts : Options) (masks : Masks) (ds : RawDataset) (suffix : String)
    (var : String) : Option (String × Arr × String) :=
  match processVariable masks ds var suffix with
  | .ok (.pair f u) => some (getVariableName opts var ++ suffix, f, u)
  | .ok (.bare _) => none
  | .error _ => none

/-- `_create_dataset` (lines 175-200 of `netcdf_reader.py`): loop over the
requested variable names, keep every successfully processed variable under
its mapped name with the product-type suffix, drop the rest. -/
def createDataset (opts : Options) (masks : Masks) (ds : RawDataset)
    (vars : List String) (suffix : String) : List (String × Arr × String) :=
  vars.foldl (fun acc var =>
    match procEntry opts masks ds suffix var with
    | some entry => acc ++ [entry]
    | none => acc) []

/-- An INI configuration artifact: named sections of key/value pairs. -/
structure ConfigFile where
  sections : List (String × List (String × String))
  deriving Repr, DecidableEq

/-- `configparser.get` with a required option: raises `NoSectionError` or
`NoOptionError` when absent. -/
def getReq (cfg : ConfigFile) (sec key : String) : Except String String :=
  match cfg.sections.lookup sec with
  | none => .error ("NoSectionError: " ++ sec)
  | some kvs =>
    match kvs.lookup key with
    | none => .error ("NoOptionError: " ++ key)
    | some v => .ok v

/-- `configparser.get` with `fallback=fb`. -/
def getWithFallback (cfg : ConfigFile) (sec key fb : String) : String :=
  match cfg.sections.lookup sec with
  | none => fb
  | some kvs => (kvs.lookup key).getD fb

/-- `[f.strip() for f in s.split('\n') if f.strip()]`. -/
def splitPatternList (s : String) : List String :=
  ((pySplit '\n' s).map pyStrip).filter (fun f => !(f == ""))

/-- `[v.strip() for v in s.split()]`. -/
def splitVarList (s : String) : List String :=
  (pySplitWs s).map pyStrip

/-- `OptionsReader.__init__` (lines 22-57 of `options_reader.py`): read the
required `[PARAMS]` options, the per-product variable lists with an empty
fallback, and the optional `[MAPPING]` section.  No value validation is
performed on `time_unit` or `save_option`. -/
def readOptions (cfg : ConfigFile) : Except String Options := do
  let modelType ← getReq cfg "PARAMS" "model_type"
  let modelPath ← getReq cfg "PARAMS" "model_path"
  let outputPath ← getReq cfg "PARAMS" "output_path"
  let maskPath ← getReq cfg "PARAMS" "mask_path"
  let physFilesRaw ← getReq cfg "PARAMS" "phys_files"
  let bioFilesRaw ← getReq cfg "PARAMS" "bio_files"
  let timeUnit ← getReq cfg "PARAMS" "time_unit"
  let saveOption ← getReq cfg "PARAMS" "save_option"
  pure
    { modelType, modelPath, outputPath, maskPath,
      physFiles := splitPatternList physFilesRaw,
      bioFiles := splitPatternList bioFilesRaw,
      timeUnit, saveOption,
      surfacePhys := splitVarList (getWithFallback cfg "SURFACE" "phys_vars" ""),
      surfaceBio := splitVarList (getWithFallback cfg "SURFACE" "bio_vars" ""),
      integratedPhys := splitVarList (getWithFallback cfg "INTEGRATED" "phys_vars" ""),
      integratedBio := splitVarList (getWithFallback cfg "INTEGRATED" "bio_vars" ""),
      bottomPhys := splitVarList (getWithFallback cfg "BOTTOM" "phys_vars" ""),
      bottomBio := splitVarList (getWithFallback cfg "BOTTOM" "bio_vars" ""),
      mapping := (cfg.sections.lookup "MAPPING").getD [] }

/-- `OptionsReader.write_to_file` (lines 71-110 of `options_reader.py`): the
serialized sections.  The `[PARAMS]` section holds `model_path`,
`output_path`, `mask_path`, the joined file patterns, `time_unit` and
`save_option`; `[MAPPING]` is written only when non-empty. -/
def writeToFile (o : Options) : ConfigFile :=
  ⟨[("PARAMS",
      [("model_path", o.modelPath), ("output_path", o.outputPath),
       ("mask_path", o.maskPath),
       ("phys_files", String.intercalate "\n" o.physFiles),
       ("bio_files", String.intercalate "\n" o.bioFiles),
       ("time_unit", o.timeUnit), ("save_option", o.saveOption)]),
    ("SURFACE",
      [("phys_vars", String.intercalate " " o.surfacePhys),
       ("bio_vars", String.intercalate " " o.surfaceBio)]),
    ("INTEGRATED",
      [("phys_vars", String.intercalate " " o.integratedPhys),
       ("bio_vars", String.intercalate " " o.integratedBio)]),
    ("BOTTOM",
      [("phys_vars", String.intercalate " " o.bottomPhys),
       ("bio_vars", String.intercalate " " o.bottomBio)])]
   ++ (if o.mapping.isEmpty then [] else [("MAPPING", o.mapping)])⟩

/-- A product/combined dataset: output variables (name, data, units) plus the
`time_counter` coordinate, which is absent (`none`) on the literal empty
`xr.Dataset()`. -/
structure Dataset where
  dataVars : List (String × Arr × String)
  timeCounter : Option (List Int)
  deriving Repr, DecidableEq

def emptyDataset : Dataset := ⟨[], none⟩

/-- Python truthiness of an xarray `Dataset`: it has at least one data
variable. -/
def Dataset.isNonempty (d : Dataset) : Bool :=
  !d.dataVars.isEmpty

/-- `_interpolate_time` (lines 236-251 of `netcdf_reader.py`): resample a
non-empty dataset to monthly means or daily interpolated values; any other
configured `time_unit` value, and the empty dataset, fall through to
`return ds`.  The two external resampling capabilities are parameters. -/
def interpolateTime (resampleMonth resampleDay : Dataset → Dataset)
    (timeUnit : String) (ds : Dataset) : Dataset :=
  if ds.isNonempty then
    if timeUnit = "month" then resampleMonth ds
    else if timeUnit = "day" then resampleDay ds
    else ds
  else ds

/-- Union of two optional time coordinates (deduplication and sorting happen
in the subsequent coordinate re-alignment step). -/
def mergeTime : Option (List Int) → Option (List Int) → Option (List Int)
  | none, t => t
  | some a, none => some a
  | some a, some b => some (a ++ b)

/-- Fold one dataset's variables into an accumulated variable list: a fresh
name is appended, an identical duplicate is kept once, and a conflicting
duplicate raises a merge error. -/
def insertVars (acc : List (String × Arr × String)) :
    List (String × Arr × String) → Except String (List (String × Arr × String))
  | [] => .ok acc
  | nv :: rest =>
    match acc.lookup nv.1 with
    | some w =>
      if w = nv.2 then insertVars acc rest
      else .error ("MergeError: conflicting values for variable " ++ nv.1)
    | none => insertVars (acc ++ [nv]) rest

/-- Merge two datasets: union of variables (conflicts raise) and union of
time coordinates. -/
def xrMerge2 (a b : Dataset) : Except String Dataset := do
  let vs ← insertVars a.dataVars b.dataVars
  pure ⟨vs, mergeTime a.timeCounter b.timeCounter⟩

/-- Modelled from the spec: the external engine's `xr.merge`, which combines
a list of datasets "into one set of variables sharing a coordinate index"
and raises on any incompatibility. -/
def xrMerge (dss : List Dataset) : Except String Dataset :=
  dss.foldlM xrMerge2 emptyDataset

def sortDedup (l : List Int) : List Int :=
  List.insertionSort (· ≤ ·) l.dedup

/-- Modelled from the spec: the external engine's coordinate re-alignment
(`xr.combine_by_coords` applied to the merged result), which re-sorts and
re-aligns "by coordinate values to guarantee a monotonically ordered,
deduplicated time/space index". -/
def xrCombineByCoords (ds : Dataset) : Dataset :=
  ⟨ds.dataVars, ds.timeCounter.map sortDedup⟩

/-- `_combine_datasets` (lines 253-272 of `netcdf_reader.py`): drop falsy
(empty) inputs, return a single survivor unchanged, otherwise merge and
re-align; any exception inside the `try` block is caught and the empty
dataset is returned instead. -/
def combineDatasets (dss : List Dataset) : Dataset :=
  let kept := dss.filter Dataset.isNonempty
  if kept.length = 1 then kept.headD emptyDataset
  else
    match xrMerge kept with
    | .ok merged => xrCombineByCoords merged
    | .error _ => emptyDataset

def Dataset.varNames (d : Dataset) : List String :=
  d.dataVars.map Prod.fst

inductive Domain where
  | phys
  | bio
  deriving Repr, DecidableEq

/-- `_save_netcdf` (lines 380-392 of `netcdf_reader.py`): the guard reads
`len(ds.time_counter)`, which raises `AttributeError` when the dataset has no
`time_counter` coordinate (in particular on the literal empty `xr.Dataset()`);
otherwise the dataset is written (`true`) when the time dimension is
non-empty and skipped (`false`) when it is empty. -/
def saveNetcdf (ds : Dataset) : Except String Bool :=
  match ds.timeCounter with
  | none => .error "AttributeError: Dataset object has no attribute time_counter"
  | some ts => if 0 < ts.length then .ok true else .ok false

/-- The three combined datasets per domain handed to the write strategies. -/
structure CombinedAll where
  surf : Domain → Dataset
  bott : Domain → Dataset
  integ : Domain → Dataset

/-- One `_save_netcdf` call inside a write strategy, recording the (product
tag, domain) of a file actually written. -/
def saveOne (tag : String) (d : Domain) (ds : Dataset) :
    Except String (List (String × Domain)) :=
  match saveNetcdf ds with
  | .error e => .error e
  | .ok true => .ok [(tag, d)]
  | .ok false => .ok []

/-- `_save_by_variable_type` (lines 331-344 of `netcdf_reader.py`): for each
domain write the surface, bottom and integrated combined datasets. -/
def saveByVariableType (c : CombinedAll) : Except String (List (String × Domain)) := do
  let s1 ← saveOne "surface" .phys (c.surf .phys)
  let b1 ← saveOne "bottom" .phys (c.bott .phys)
  let i1 ← saveOne "integrated" .phys (c.integ .phys)
  let s2 ← saveOne "surface" .bio (c.surf .bio)
  let b2 ← saveOne "bottom" .bio (c.bott .bio)
  let i2 ← saveOne "integrated" .bio (c.integ .bio)
  pure (s1 ++ b1 ++ i1 ++ s2 ++ b2 ++ i2)

/-- Modelled from the spec: the external engine's `time.year` accessor.
Time-coordinate values encode the calendar year in their thousands digit
group, so the year of a timestamp is its integer division by 1000. -/
def yearOf (t : Int) : Int := t / 1000

/-- `ds.sel(time=str(year))`: restrict the time coordinate to the given
calendar year. -/
def selYear (ds : Dataset) (y : Int) : Dataset :=
  ⟨ds.dataVars, ds.timeCounter.map (fun ts => ts.filter (fun t => yearOf t == y))⟩

/-- One `_save_netcdf` call of the yearly strategy, recording the (product
tag, domain, year) of a file actually written. -/
def saveDsYear (tag : String) (d : Domain) (ds : Dataset) (y : Int) :
    Except String (List (String × Domain × Int)) :=
  match saveNetcdf (selYear ds y) with
  | .error e => .error e
  | .ok true => .ok [(tag, d, y)]
  | .ok false => .ok []

/-- Sequentially run a file-writing step over a list, concatenating the
records of written files; the first raised error aborts. -/
def collectM {γ α : Type _} (step : γ → Except String (List α)) (l : List γ) :
    Except String (List α) :=
  l.foldlM (fun acc x => do
    let fs ← step x
    pure (acc ++ fs)) []

/-- The body of `_save_yearly`'s per-year loop: save the year slice of the
surface, bottom and integrated datasets of both domains. -/
def saveYearOne (c : CombinedAll) (y : Int) :
    Except String (List (String × Domain × Int)) :=
  collectM (fun it => saveDsYear it.1 it.2.1 it.2.2 y)
    [("surface", Domain.phys, c.surf .phys), ("surface", Domain.bio, c.surf .bio),
     ("bottom", Domain.phys, c.bott .phys), ("bottom", Domain.bio, c.bott .bio),
     ("integrated", Domain.phys, c.integ .phys), ("integrated", Domain.bio, c.integ .bio)]

/-- `_save_yearly` (lines 289-311 of `netcdf_reader.py`): the set of years is
`combined_surface_ds['phys'].groupby('time.year').groups.keys()` — taken from
the physical-domain combined surface dataset alone — and each year's slices
of every dataset are then written. -/
def saveYearly (c : CombinedAll) : Except String (List (String × Domain × Int)) :=
  match (c.surf .phys).timeCounter with
  | none => .error "KeyError: no time coordinate to group by"
  | some ts => collectM (saveYearOne c) ((ts.map yearOf).dedup)

def isOkE {ε α : Type _} : Except ε α → Bool
  | .ok _ => true
  | .error _ => false

/-- A well-formed configuration artifact whose `time_unit` value is the
given string; every required `[PARAMS]` option is present. -/
def mkConfig (u : String) : ConfigFile :=
  ⟨[("PARAMS",
      [("model_type", "nemo"), ("model_path", "/models"), ("output_path", "/out"),
       ("mask_path", "/mask.nc"), ("phys_files", "grid_T.nc"), ("bio_files", "ptrc_T.nc"),
       ("time_unit", u), ("save_option", "all")])]⟩

/-- C9: for every options value, the serialized `[PARAMS]` section written by
`write_to_file` contains no `model_type` key, so re-reading the serialized
file with `OptionsReader.__init__` fails (`NoOptionError` on `model_type`)
instead of reproducing the options: the configuration round-trip loses the
model type selector. -/
theorem writeToFile_roundtrip_loses_model_type (o : Options) :
    (((writeToFile o).sections.lookup "PARAMS").getD []).lookup "model_type" = none
    ∧ readOptions (writeToFile o) = .error "NoOptionError: model_type" :=
  ⟨rfl, rfl⟩

/-- C8: `_save_netcdf`'s emptiness guard itself fails on the empty dataset
(`xr.Dataset()` has no `time_counter` coordinate, so `len(ds.time_counter)`
raises `AttributeError`), and consequently a write strategy handed a
merge-degraded empty slot raises instead of skipping it. -/
theorem saveNetcdf_empty_dataset_raises :
    saveNetcdf emptyDataset
      = .error "AttributeError: Dataset object has no attribute time_counter"
    ∧ saveByVariableType
        ⟨(fun d => match d with
            | .phys => emptyDataset
            | .bio => ⟨[("t_surface", .a2 [1], "C")], some [1000]⟩),
         (fun _ => ⟨[("t_bottom", .a2 [2], "C")], some [1000]⟩),
         (fun _ => ⟨[("t_integrated", .a2 [3], "C")], some [1000]⟩)⟩
      = .error "AttributeError: Dataset object has no attribute time_counter" :=
  ⟨rfl, rfl⟩

/-- C3: a resolved field without a vertical dimension is returned bare by
`_process_variable` (line 234, `return summed_var`), without its units and
under every reduction policy; the tuple unpacking in `_create_dataset` then
fails and the variable is dropped from the product dataset instead of being
inserted unchanged with its units. -/
theorem processVariable_no_depth_returns_bare :
    processVariable ⟨[], [], []⟩ ⟨[("zos", ⟨.a2 [1, 2, 3], some "m"⟩)]⟩ "zos" "_surface"
      = .ok (.bare (.a2 [1, 2, 3]))
    ∧ processVariable ⟨[], [], []⟩ ⟨[("zos", ⟨.a2 [1, 2, 3], some "m"⟩)]⟩ "zos" "_bottom"
      = .ok (.bare (.a2 [1, 2, 3]))
    ∧ processVariable ⟨[], [], []⟩ ⟨[("zos", ⟨.a2 [1, 2, 3], some "m"⟩)]⟩ "zos" "_integrated"
      = .ok (.bare (.a2 [1, 2, 3]))
    ∧ createDataset ⟨"nemo", "", "", "", [], [], "month", "all", [], [], [], [], [], [], []⟩
        ⟨[], [], []⟩ ⟨[("zos", ⟨.a2 [1, 2, 3], some "m"⟩)]⟩ ["zos"] "_surface" = [] :=
  ⟨rfl, rfl, rfl, rfl⟩

/-- C4 counterexample: the configured time-resampling unit `"week"` passes
configuration reading without any error, and `_interpolate_time` silently
returns the dataset unresampled — no unsupported-option error is raised. -/
theorem timeUnit_week_accepted_and_ignored :
    isOkE (readOptions (mkConfig "week")) = true
    ∧ interpolateTime id id "week" ⟨[("t_surface", .a2 [1], "C")], some [1000]⟩
        = ⟨[("t_surface", .a2 [1], "C")], some [1000]⟩ :=
  ⟨rfl, rfl⟩

/-- C4 amended: for every configured time-resampling unit other than
`"month"` and `"day"`, configuration reading accepts the value without
validation and `_interpolate_time` leaves every dataset unresampled. -/
theorem timeUnit_other_silently_unresampled (u : String) (ds : Dataset)
    (rM rD : Dataset → Dataset) (hm : u ≠ "month") (hd : u ≠ "day") :
    isOkE (readOptions (mkConfig u)) = true
    ∧ interpolateTime rM rD u ds = ds := by
  constructor
  · rfl
  · simp [interpolateTime, hm, hd]

theorem timeUnit_other_silently_unresampled_witness :
    isOkE (readOptions (mkConfig "week")) = true
    ∧ interpolateTime id id "week" emptyDataset = emptyDataset :=
  timeUnit_other_silently_unresampled "week" emptyDataset id id
    (by decide) (by decide)

lemma mapM_getVar_of_forall2 (ds : RawDataset) {cs : List String} {vs : List RawVar}
    (h : List.Forall₂ (fun c v => ds.find? c = some v) cs vs) :
    cs.mapM (getVar ds) = .ok vs := by
  induction h with
  | nil => rfl
  | cons hcv htail ih =>
    rw [List.mapM_cons, ih]
    simp only [getVar, hcv]
    rfl

/-- C1: for every raw dataset and every variable expression containing `+`,
`resolve` splits the expression on `+` into component field names and, with
every component present in the raw dataset, returns the element-wise sum
across all component fields together with the first component's unit string
with its final character replaced by `"2"` (`units[:-1] + "2"`); in
particular, for every two-component expression `"a+b"` the result is
`field(a) + field(b)`. -/
theorem resolveVariable_sum (ds : RawDataset) (var c0 : String) (rest : List String)
    (f0 : Arr) (u0 : String) (vs : List RawVar)
    (hc : pyContains '+' var = true)
    (hsplit : pySplit '+' var = c0 :: rest)
    (h0 : ds.find? c0 = some ⟨f0, some u0⟩)
    (hrest : List.Forall₂ (fun c v => ds.find? c = some v) rest vs) :
    resolveVariable ds var
      = .ok ((vs.map RawVar.data).foldl Arr.add f0, pyDropLast u0 ++ "2")
    ∧ ∀ vb, vs = [vb] →
        resolveVariable ds var = .ok (f0.add vb.data, pyDropLast u0 ++ "2") := by
  have hmap : rest.mapM (getVar ds) = .ok vs := mapM_getVar_of_forall2 ds hrest
  have hmain : resolveVariable ds var
      = .ok ((vs.map RawVar.data).foldl Arr.add f0, pyDropLast u0 ++ "2") := by
    simp only [resolveVariable, hc, if_true, hsplit, getVar, h0, hmap]
    rfl
  refine ⟨hmain, ?_⟩
  intro vb hvb
  rw [hmain, hvb]
  rfl

theorem resolveVariable_sum_witness :
    resolveVariable
        ⟨[("sx", ⟨.a2 [1, 2], some "mN"⟩), ("sy", ⟨.a2 [10, 20], some "x"⟩),
          ("sz", ⟨.a2 [100, 200], some "y"⟩)]⟩ "sx+sy+sz"
      = .ok (.a2 [111, 222], "m2")
    ∧ resolveVariable
        ⟨[("taubx", ⟨.a2 [3, 4], some "mN"⟩), ("tauby", ⟨.a2 [30, 40], some "mN"⟩)]⟩
        "taubx+tauby"
      = .ok (.a2 [33, 44], "m2") := by
  constructor
  · have h := resolveVariable_sum
      ⟨[("sx", ⟨.a2 [1, 2], some "mN"⟩), ("sy", ⟨.a2 [10, 20], some "x"⟩),
        ("sz", ⟨.a2 [100, 200], some "y"⟩)]⟩ "sx+sy+sz" "sx" ["sy", "sz"]
      (.a2 [1, 2]) "mN" [⟨.a2 [10, 20], some "x"⟩, ⟨.a2 [100, 200], some "y"⟩]
      (by decide) (by decide) (by decide)
      (List.Forall₂.cons (by decide) (List.Forall₂.cons (by decide) List.Forall₂.nil))
    exact h.1.trans (by decide)
  · have h := resolveVariable_sum
      ⟨[("taubx", ⟨.a2 [3, 4], some "mN"⟩), ("tauby", ⟨.a2 [30, 40], some "mN"⟩)]⟩
      "taubx+tauby" "taubx" ["tauby"] (.a2 [3, 4]) "mN" [⟨.a2 [30, 40], some "mN"⟩]
      (by decide) (by decide) (by decide)
      (List.Forall₂.cons (by decide) List.Forall₂.nil)
    exact (h.2 ⟨.a2 [30, 40], some "mN"⟩ rfl).trans (by decide)

lemma mulMaskCol_sum_zero (col : List Int) (mc : List Bool)
    (h : ∀ k, k < mc.length → mc.getD k false = false) :
    (mulMaskCol col mc).sum = 0 := by
  induction col generalizing mc with
  | nil => simp [mulMaskCol]
  | cons v cs ih =>
    cases mc with
    | nil => simp [mulMaskCol]
    | cons b ms =>
      have hb : b = false := h 0 (by simp)
      have h' : ∀ k, k < ms.length → ms.getD k false = false := by
        intro k hk
        have := h (k + 1) (by simpa using Nat.succ_lt_succ hk)
        simpa using this
      have hstep : mulMaskCol (v :: cs) (b :: ms) = (v * boolToInt b) :: mulMaskCol cs ms := rfl
      rw [hstep, List.sum_cons, ih ms h', hb]
      simp [boolToInt]

lemma mulMaskCol_sum_oneHot (col : List Int) (mc : List Bool) (j : Nat)
    (hlen : col.length = mc.length)
    (hj : mc.getD j false = true)
    (hothers : ∀ k, k < mc.length → k ≠ j → mc.getD k false = false) :
    (mulMaskCol col mc).sum = col.getD j 0 := by
  induction col generalizing mc j with
  | nil =>
    cases mc with
    | nil => simp at hj
    | cons b ms => simp at hlen
  | cons v cs ih =>
    cases mc with
    | nil => simp at hlen
    | cons b ms =>
      cases j with
      | zero =>
        have hb : b = true := by simpa using hj
        have hz : ∀ k, k < ms.length → ms.getD k false = false := by
          intro k hk
          have := hothers (k + 1) (by simpa using Nat.succ_lt_succ hk) (Nat.succ_ne_zero k)
          simpa using this
        have hrest : (mulMaskCol cs ms).sum = 0 := mulMaskCol_sum_zero cs ms hz
        have hstep : mulMaskCol (v :: cs) (b :: ms) = (v * boolToInt b) :: mulMaskCol cs ms := rfl
        rw [hstep, List.sum_cons, hrest, hb]
        simp [boolToInt]
      | succ j' =>
        have hb : b = false := by
          have := hothers 0 (by simp) (by simp)
          simpa using this
        have hlen' : cs.length = ms.length := by simpa using hlen
        have hj' : ms.getD j' false = true := by simpa using hj
        have ho' : ∀ k, k < ms.length → k ≠ j' → ms.getD k false = false := by
          intro k hk hkj
          have := hothers (k + 1) (by simpa using Nat.succ_lt_succ hk)
            (by simpa using hkj)
          simpa using this
        have hstep : mulMaskCol (v :: cs) (b :: ms) = (v * boolToInt b) :: mulMaskCol cs ms := rfl
        rw [hstep, List.sum_cons, ih ms j' hlen' hj' ho', hb]
        simp [boolToInt]

lemma reduceBottom_getD (f : List (List Int)) (m : List (List Bool)) (i : Nat)
    (hif : i < f.length) (him : i < m.length) :
    (reduceBottom f m).getD i 0 = (mulMaskCol (f.getD i []) (m.getD i [])).sum := by
  induction f generalizing m i with
  | nil => simp at hif
  | cons c fs ih =>
    cases m with
    | nil => simp at him
    | cons mc ms =>
      cases i with
      | zero => simp [reduceBottom]
      | succ i' =>
        have := ih ms i' (by simpa using hif) (by simpa using him)
        simpa [reduceBottom] using this

/-- C2: for every resolved field with a vertical dimension, the bottom policy
of `_process_variable` returns `(summed_var * bottom_mask).sum('deptht')`
(multiply element-wise by the bottom indicator mask and sum along the
vertical axis); in every column whose indicator has exactly one non-zero
level the result is the field's value at that level, and in every column
with an all-zero indicator the result is `0`. -/
theorem reduceBottom_bottom_policy (masks : Masks) (ds : RawDataset) (var : String)
    (f : List (List Int)) (u : String)
    (hres : resolveVariable ds var = .ok (.a3 f, u)) :
    processVariable masks ds var "_bottom" = .ok (.pair (.a2 (reduceBottom f masks.floor)) u)
    ∧ ∀ i, i < f.length → i < masks.floor.length →
        ((∀ j, (masks.floor.getD i []).getD j false = true →
            (∀ k, k < (masks.floor.getD i []).length → k ≠ j →
              (masks.floor.getD i []).getD k false = false) →
            (f.getD i []).length = (masks.floor.getD i []).length →
            (reduceBottom f masks.floor).getD i 0 = (f.getD i []).getD j 0)
         ∧ ((∀ k, k < (masks.floor.getD i []).length →
              (masks.floor.getD i []).getD k false = false) →
            (reduceBottom f masks.floor).getD i 0 = 0)) := by
  constructor
  · simp only [processVariable, hres]
    rfl
  · intro i hif him
    constructor
    · intro j hj hothers hlen
      rw [reduceBottom_getD f masks.floor i hif him]
      exact mulMaskCol_sum_oneHot _ _ j hlen hj hothers
    · intro hz
      rw [reduceBottom_getD f masks.floor i hif him]
      exact mulMaskCol_sum_zero _ _ hz

theorem reduceBottom_bottom_policy_witness :
    processVariable ⟨[[false, true, false], [false, false, false]], [], []⟩
        ⟨[("T", ⟨.a3 [[10, 20, 30], [40, 50, 60]], some "C"⟩)]⟩ "T" "_bottom"
      = .ok (.pair (.a2 (reduceBottom [[10, 20, 30], [40, 50, 60]]
          [[false, true, false], [false, false, false]])) "C")
    ∧ (reduceBottom [[10, 20, 30], [40, 50, 60]]
        [[false, true, false], [false, false, false]]).getD 0 0 = 20
    ∧ (reduceBottom [[10, 20, 30], [40, 50, 60]]
        [[false, true, false], [false, false, false]]).getD 1 0 = 0 := by
  have h := reduceBottom_bottom_policy
    ⟨[[false, true, false], [false, false, false]], [], []⟩
    ⟨[("T", ⟨.a3 [[10, 20, 30], [40, 50, 60]], some "C"⟩)]⟩ "T"
    [[10, 20, 30], [40, 50, 60]] "C" (by rfl)
  refine ⟨h.1, ?_, ?_⟩
  · have h2 := (h.2 0 (by decide) (by decide)).1 1 (by decide) (by decide) (by decide)
    exact h2.trans (by decide)
  · exact (h.2 1 (by decide) (by decide)).2 (by decide)

lemma createDataset_eq_filterMap (opts : Options) (masks : Masks) (ds : RawDataset)
    (vars : List String) (suffix : String) :
    createDataset opts masks ds vars suffix
      = vars.filterMap (procEntry opts masks ds suffix) := by
  have aux : ∀ (l : List String) (acc : List (String × Arr × String)),
      l.foldl (fun acc var =>
          match procEntry opts masks ds suffix var with
          | some entry => acc ++ [entry]
          | none => acc) acc
        = acc ++ l.filterMap (procEntry opts masks ds suffix) := by
    intro l
    induction l with
    | nil => intro acc; simp
    | cons v rest ih =>
      intro acc
      cases hv : procEntry opts masks ds suffix v <;>
        simp [List.foldl_cons, List.filterMap_cons, hv, ih]
  simpa [createDataset] using aux vars []

/-- C7: a failure of `_process_variable` on any single variable is caught by
`_create_dataset` and only that variable is omitted from the product dataset;
the variables before and after it are processed exactly as if the failing
variable had not been requested, and the build itself never aborts. -/
theorem createDataset_failure_isolated (opts : Options) (masks : Masks)
    (ds : RawDataset) (suffix : String) (vs1 vs2 : List String) (v : String)
    (e : PErr) (hv : processVariable masks ds v suffix = .error e) :
    createDataset opts masks ds (vs1 ++ v :: vs2) suffix
      = createDataset opts masks ds (vs1 ++ vs2) suffix := by
  have hnone : procEntry opts masks ds suffix v = none := by
    simp [procEntry, hv]
  simp [createDataset_eq_filterMap, List.filterMap_append, List.filterMap_cons, hnone]

theorem createDataset_failure_isolated_witness :
    createDataset ⟨"nemo", "", "", "", [], [], "month", "all", [], [], [], [], [], [], []⟩
        ⟨[[true]], [], []⟩
        ⟨[("so", ⟨.a3 [[7]], some "psu"⟩), ("to", ⟨.a3 [[4]], some "C"⟩)]⟩
        ["so", "missing", "to"] "_bottom"
      = createDataset ⟨"nemo", "", "", "", [], [], "month", "all", [], [], [], [], [], [], []⟩
          ⟨[[true]], [], []⟩
          ⟨[("so", ⟨.a3 [[7]], some "psu"⟩), ("to", ⟨.a3 [[4]], some "C"⟩)]⟩
          ["so", "to"] "_bottom" :=
  createDataset_failure_isolated
    ⟨"nemo", "", "", "", [], [], "month", "all", [], [], [], [], [], [], []⟩
    ⟨[[true]], [], []⟩
    ⟨[("so", ⟨.a3 [[7]], some "psu"⟩), ("to", ⟨.a3 [[4]], some "C"⟩)]⟩
    "_bottom" ["so"] ["to"] "missing" (.varNotFound "missing") (by rfl)

lemma exceptBindOk {ε α β : Type _} {x : Except ε α} {f : α → Except ε β} {b : β}
    (h : (x >>= f) = .ok b) : ∃ a, x = .ok a ∧ f a = .ok b := by
  cases x with
  | ok a => exact ⟨a, rfl, h⟩
  | error e => exact absurd h (by simp [Bind.bind, Except.bind])

lemma lookup_some_mem_keys {β : Type _} (l : List (String × β)) (k : String) (v : β)
    (h : l.lookup k = some v) : k ∈ l.map Prod.fst := by
  induction l with
  | nil => simp [List.lookup] at h
  | cons p rest ih =>
    obtain ⟨pk, pv⟩ := p
    by_cases hke : k = pk
    · simp [hke]
    · have hb : (k == pk) = false := beq_eq_false_iff_ne.mpr hke
      simp only [List.lookup, hb] at h
      simpa using Or.inr (ih h)

lemma insertVars_ok_keys : ∀ (l acc m : List (String × Arr × String)),
    insertVars acc l = .ok m →
    ∀ n, n ∈ m.map Prod.fst ↔ (n ∈ acc.map Prod.fst ∨ ∃ p ∈ l, p.1 = n) := by
  intro l
  induction l with
  | nil =>
    intro acc m h n
    simp only [insertVars, Except.ok.injEq] at h
    subst h
    simp
  | cons nv rest ih =>
    intro acc m h n
    simp only [insertVars] at h
    cases hl : acc.lookup nv.1 with
    | none =>
      simp only [hl] at h
      rw [ih (acc ++ [nv]) m h n]
      constructor
      · rintro (h1 | ⟨p, hp, hpn⟩)
        · rw [List.map_append] at h1
          rcases List.mem_append.mp h1 with h2 | h2
          · exact Or.inl h2
          · refine Or.inr ⟨nv, List.mem_cons_self nv rest, ?_⟩
            have h3 : n = nv.1 := by simpa using h2
            exact h3.symm
        · exact Or.inr ⟨p, List.mem_cons_of_mem _ hp, hpn⟩
      · rintro (h1 | ⟨p, hp, hpn⟩)
        · rw [List.map_append]
          exact Or.inl (List.mem_append.mpr (Or.inl h1))
        · rcases List.mem_cons.mp hp with rfl | hp'
          · refine Or.inl ?_
            rw [List.map_append]
            exact List.mem_append.mpr (Or.inr (by simpa using hpn.symm))
          · exact Or.inr ⟨p, hp', hpn⟩
    | some w =>
      simp only [hl] at h
      by_cases hw : w = nv.2
      · rw [if_pos hw] at h
        have hmem : nv.1 ∈ acc.map Prod.fst := lookup_some_mem_keys _ _ _ hl
        rw [ih acc m h n]
        constructor
        · rintro (h1 | ⟨p, hp, hpn⟩)
          · exact Or.inl h1
          · exact Or.inr ⟨p, List.mem_cons_of_mem _ hp, hpn⟩
        · rintro (h1 | ⟨p, hp, hpn⟩)
          · exact Or.inl h1
          · rcases List.mem_cons.mp hp with rfl | hp'
            · exact Or.inl (hpn ▸ hmem)
            · exact Or.inr ⟨p, hp', hpn⟩
      · rw [if_neg hw] at h
        simp at h

lemma xrMerge2_ok_keys (a b m : Dataset) (h : xrMerge2 a b = .ok m) :
    ∀ n, n ∈ m.varNames ↔ (n ∈ a.varNames ∨ n ∈ b.varNames) := by
  intro n
  obtain ⟨vs, hins, hp⟩ := exceptBindOk h
  have hm : m = ⟨vs, mergeTime a.timeCounter b.timeCounter⟩ := (Except.ok.inj hp).symm
  subst hm
  have := insertVars_ok_keys b.dataVars a.dataVars vs hins n
  simpa [Dataset.varNames, List.mem_map] using this

lemma xrMerge_fold_keys : ∀ (dss : List Dataset) (acc m : Dataset),
    List.foldlM xrMerge2 acc dss = .ok m →
    ∀ n, n ∈ m.varNames ↔ (n ∈ acc.varNames ∨ ∃ d ∈ dss, n ∈ d.varNames) := by
  intro dss
  induction dss with
  | nil =>
    intro acc m h n
    have hm : acc = m := Except.ok.inj h
    subst hm
    simp
  | cons d rest ih =>
    intro acc m h n
    rw [List.foldlM_cons] at h
    obtain ⟨a2, h2, hrest⟩ := exceptBindOk h
    rw [ih a2 m hrest n, xrMerge2_ok_keys acc d a2 h2 n]
    constructor
    · rintro ((h1 | h1) | ⟨d', hd', h1⟩)
      · exact Or.inl h1
      · exact Or.inr ⟨d, List.mem_cons_self d rest, h1⟩
      · exact Or.inr ⟨d', List.mem_cons_of_mem _ hd', h1⟩
    · rintro (h1 | ⟨d', hd', h1⟩)
      · exact Or.inl (Or.inl h1)
      · rcases List.mem_cons.mp hd' with rfl | hd''
        · exact Or.inl (Or.inr h1)
        · exact Or.inr ⟨d', hd'', h1⟩

lemma sortDedup_sorted (l : List Int) : (sortDedup l).Sorted (· ≤ ·) :=
  List.sorted_insertionSort _ _

lemma sortDedup_nodup (l : List Int) : (sortDedup l).Nodup :=
  ((List.perm_insertionSort (· ≤ ·) l.dedup).nodup_iff).mpr (List.nodup_dedup l)

/-- C5: `_combine_datasets` first drops empty inputs; with zero non-empty
inputs left it returns the empty dataset, with exactly one it returns that
input unchanged, and with more than one compatible (mergeable) input it
returns the re-aligned merge, whose variable set is the union of the inputs'
variable sets and whose time-coordinate index is sorted and deduplicated. -/
theorem combineDatasets_cases (dss : List Dataset) :
    ((dss.filter Dataset.isNonempty).length = 0 → combineDatasets dss = emptyDataset)
    ∧ (∀ d, dss.filter Dataset.isNonempty = [d] → combineDatasets dss = d)
    ∧ (∀ merged, 1 < (dss.filter Dataset.isNonempty).length →
        xrMerge (dss.filter Dataset.isNonempty) = .ok merged →
        combineDatasets dss = xrCombineByCoords merged
        ∧ (∀ n, n ∈ (combineDatasets dss).varNames ↔
            ∃ d ∈ dss.filter Dataset.isNonempty, n ∈ d.varNames)
        ∧ (∀ ts, (combineDatasets dss).timeCounter = some ts →
            ts.Sorted (· ≤ ·) ∧ ts.Nodup)) := by
  refine ⟨?_, ?_, ?_⟩
  · intro h0
    have hnil : dss.filter Dataset.isNonempty = [] := List.length_eq_zero.mp h0
    simp only [combineDatasets, hnil]
    rfl
  · intro d hd
    simp [combineDatasets, hd]
  · intro merged hlen hm
    have hne : ¬(dss.filter Dataset.isNonempty).length = 1 := by omega
    have hc : combineDatasets dss = xrCombineByCoords merged := by
      simp [combineDatasets, hne, hm]
    refine ⟨hc, ?_, ?_⟩
    · intro n
      rw [hc]
      have hk := xrMerge_fold_keys (dss.filter Dataset.isNonempty) emptyDataset merged hm n
      simpa [xrCombineByCoords, Dataset.varNames, emptyDataset] using hk
    · intro ts hts
      rw [hc] at hts
      simp only [xrCombineByCoords] at hts
      cases htm : merged.timeCounter with
      | none => rw [htm] at hts; simp at hts
      | some l =>
        rw [htm] at hts
        have hts' : ts = sortDedup l := by
          have := Option.some.inj (by simpa using hts)
          exact this.symm
        rw [hts']
        exact ⟨sortDedup_sorted l, sortDedup_nodup l⟩

theorem combineDatasets_cases_witness :
    combineDatasets [⟨[("x", .a2 [1], "u")], some [5, 3]⟩, ⟨[("y", .a2 [2], "v")], some [3, 1]⟩]
      = xrCombineByCoords ⟨[("x", .a2 [1], "u"), ("y", .a2 [2], "v")], some [5, 3, 3, 1]⟩
    ∧ ("y" ∈ (combineDatasets [⟨[("x", .a2 [1], "u")], some [5, 3]⟩,
          ⟨[("y", .a2 [2], "v")], some [3, 1]⟩]).varNames ↔
        ∃ d ∈ [⟨[("x", .a2 [1], "u")], some [5, 3]⟩,
            (⟨[("y", .a2 [2], "v")], some [3, 1]⟩ : Dataset)].filter Dataset.isNonempty,
          "y" ∈ d.varNames) := by
  have h := (combineDatasets_cases [⟨[("x", .a2 [1], "u")], some [5, 3]⟩,
      ⟨[("y", .a2 [2], "v")], some [3, 1]⟩]).2.2
    ⟨[("x", .a2 [1], "u"), ("y", .a2 [2], "v")], some [5, 3, 3, 1]⟩ (by decide) (by rfl)
  exact ⟨h.1, h.2.1 "y"⟩

/-- C6: when the merge of the (more than one, or zero) surviving non-empty
inputs fails for any reason, `_combine_datasets` catches the exception and
returns the empty dataset for that slot instead of propagating the failure. -/
theorem combineDatasets_merge_failure (dss : List Dataset) (e : String)
    (hne : (dss.filter Dataset.isNonempty).length ≠ 1)
    (hm : xrMerge (dss.filter Dataset.isNonempty) = .error e) :
    combineDatasets dss = emptyDataset := by
  simp [combineDatasets, hne, hm]

theorem combineDatasets_merge_failure_witness :
    combineDatasets [⟨[("v", .a2 [1], "u")], some [1000]⟩, ⟨[("v", .a2 [2], "u")], some [2000]⟩]
      = emptyDataset :=
  combineDatasets_merge_failure
    [⟨[("v", .a2 [1], "u")], some [1000]⟩, ⟨[("v", .a2 [2], "u")], some [2000]⟩]
    "MergeError: conflicting values for variable v" (by decide) (by rfl)

lemma collectM_fold_mem {γ α : Type _} (step : γ → Except String (List α)) :
    ∀ (l : List γ) (acc out : List α),
      (l.foldlM (fun acc x => do
        let fs ← step x
        pure (acc ++ fs)) acc) = .ok out →
      ∀ e ∈ out, e ∈ acc ∨ ∃ x ∈ l, ∃ fs, step x = .ok fs ∧ e ∈ fs := by
  intro l
  induction l with
  | nil =>
    intro acc out h e he
    have hao : acc = out := Except.ok.inj h
    subst hao
    exact Or.inl he
  | cons x xs ih =>
    intro acc out h e he
    rw [List.foldlM_cons] at h
    obtain ⟨a1, h1, hrest⟩ := exceptBindOk h
    obtain ⟨fs, hfs, hpure⟩ := exceptBindOk h1
    have ha1 : acc ++ fs = a1 := Except.ok.inj hpure
    rcases ih a1 out hrest e he with hacc | ⟨x', hx', fs', hfs', he'⟩
    · rw [← ha1] at hacc
      rcases List.mem_append.mp hacc with h2 | h2
      · exact Or.inl h2
      · exact Or.inr ⟨x, List.mem_cons_self x xs, fs, hfs, h2⟩
    · exact Or.inr ⟨x', List.mem_cons_of_mem _ hx', fs', hfs', he'⟩

lemma collectM_mem {γ α : Type _} (step : γ → Except String (List α))
    (l : List γ) (out : List α) (h : collectM step l = .ok out) :
    ∀ e ∈ out, ∃ x ∈ l, ∃ fs, step x = .ok fs ∧ e ∈ fs := by
  intro e he
  rcases collectM_fold_mem step l [] out h e he with h0 | h1
  · simp at h0
  · exact h1

lemma saveDsYear_year (tag : String) (d : Domain) (ds : Dataset) (y : Int)
    (l : List (String × Domain × Int)) (h : saveDsYear tag d ds y = .ok l) :
    ∀ e ∈ l, e.2.2 = y := by
  intro e he
  simp only [saveDsYear] at h
  cases hs : saveNetcdf (selYear ds y) with
  | error er =>
    simp only [hs] at h
    exact absurd h (by simp)
  | ok w =>
    simp only [hs] at h
    cases w
    · have : ([] : List (String × Domain × Int)) = l := Except.ok.inj h
      subst this
      simp at he
    · have : [(tag, d, y)] = l := Except.ok.inj h
      subst this
      have : e = (tag, d, y) := by simpa using he
      rw [this]

lemma saveYearOne_year (c : CombinedAll) (y : Int) (l : List (String × Domain × Int))
    (h : saveYearOne c y = .ok l) : ∀ e ∈ l, e.2.2 = y := by
  intro e he
  rcases collectM_mem _ _ _ h e he with ⟨it, hit, fs, hfs, hefs⟩
  exact saveDsYear_year it.1 it.2.1 it.2.2 y fs hfs e hefs

/-- C10: under the yearly strategy, every file that gets written carries a
year taken from the time coordinate of the physical-domain combined surface
dataset alone; a year absent from that dataset is never written for any
(product type, domain). -/
theorem saveYearly_years_from_phys_surface (c : CombinedAll)
    (files : List (String × Domain × Int)) (tag : String) (d : Domain) (y : Int)
    (hs : saveYearly c = .ok files) (hmem : (tag, d, y) ∈ files) :
    y ∈ ((c.surf Domain.phys).timeCounter.getD []).map yearOf := by
  rcases htc : (c.surf Domain.phys).timeCounter with _ | ts
  · simp only [saveYearly, htc] at hs
    exact absurd hs (by simp)
  · simp only [saveYearly, htc] at hs
    rcases collectM_mem _ _ _ hs (tag, d, y) hmem with ⟨y', hy', fs, hfs, hefs⟩
    have he : (tag, d, y).2.2 = y' := saveYearOne_year c y' fs hfs _ hefs
    simp only at he
    subst he
    simpa using List.mem_dedup.mp hy'

theorem saveYearly_years_from_phys_surface_witness :
    (1 : Int) ∈ ([(1000 : Int), 2500].map yearOf) :=
  saveYearly_years_from_phys_surface
    ⟨(fun d => match d with
        | .phys => ⟨[("t_surface", .a2 [1], "C")], some [1000, 2500]⟩
        | .bio => ⟨[("b_surface", .a2 [2], "C")], some [1500]⟩),
     (fun _ => ⟨[("t_bottom", .a2 [1], "C")], some [1500]⟩),
     (fun _ => ⟨[("t_integrated", .a2 [1], "C")], some [1500]⟩)⟩
    [("surface", Domain.phys, 1), ("surface", Domain.bio, 1), ("bottom", Domain.phys, 1),
     ("bottom", Domain.bio, 1), ("integrated", Domain.phys, 1), ("integrated", Domain.bio, 1),
     ("surface", Domain.phys, 2)]
    "surface" Domain.phys 1 (by rfl) (by decide)
